import Mathlib

/-!
# Verification of the go-appserver worker pool core

Shallow embedding of the application-server core (worker lifecycle,
pool dispatch, stream relay, pub/sub hub) translated from the Go
sources, together with theorems settling the specification claims.

The embedding is sequential: every operation is a pure function on an
explicit state, and external I/O (the child process wire, the factory,
the HTTP sink) is abstracted as oracles/event traces.
-/

namespace AppServer

/-! ## Errors

Error values visible in the core.  Go compares some errors by identity
(`err == io.EOF`); the inductive constructors model those identities, and
`errString` models `err.Error()` for the substring classification in
`isBrokenPipe`. -/

inductive GoError where
  | eof
  | unexpectedEOF
  | workerDead
  | workerDraining
  | noWorkers
  | streamError (msg : String)
  | unknownFrameType (t : String)
  | other (msg : String)
  deriving DecidableEq, Repr

/-- `err.Error()` strings of the modelled errors (io.EOF prints "EOF",
io.ErrUnexpectedEOF prints "unexpected EOF", the named errors print their
`errors.New` message). -/
def GoError.errString : GoError → String
  | .eof => "EOF"
  | .unexpectedEOF => "unexpected EOF"
  | .workerDead => "worker is dead"
  | .workerDraining => "worker is draining"
  | .noWorkers => "no workers available"
  | .streamError m => "stream error from worker: " ++ m
  | .unknownFrameType t => "unknown stream frame type: " ++ t
  | .other m => m

/-- Boolean test that `pat` occurs at the start of `s` (on char lists). -/
def hasPre : List Char → List Char → Bool
  | _, [] => true
  | [], _ :: _ => false
  | a :: as, b :: bs => a == b && hasPre as bs

/-- Boolean test that `pat` occurs somewhere inside `s` (on char lists);
models Go `strings.Contains`. -/
def hasSub : List Char → List Char → Bool
  | [], pat => pat.isEmpty
  | s :: rest, pat => hasPre (s :: rest) pat || hasSub rest pat

/-- Go `strings.Contains s pat`. -/
def strContains (s pat : String) : Bool :=
  hasSub s.toList pat.toList

/-- Translation of `isBrokenPipe` (part_001 lines 275-285): identity match
on io.EOF / io.ErrUnexpectedEOF, else substring match on the message. -/
def isBrokenPipe (e : GoError) : Bool :=
  e == .eof || e == .unexpectedEOF ||
    strContains e.errString "broken pipe" ||
    strContains e.errString "write |1:" ||
    strContains e.errString "read |0:"

/-! ## Worker state -/

inductive WorkerState where
  | idle
  | busy
  | draining
  | dead
  deriving DecidableEq, Repr

/-- The worker's mutable state tracked by the embedding: the `dead` flag,
the `state` field, the in-flight counter and the request counter, plus the
`maxRequests` configuration (a Go `int`, hence `Int`).  The process handle
and the raw byte streams are abstracted away; all interaction with them
goes through the oracles below. -/
structure Worker where
  dead : Bool
  state : WorkerState
  inFlight : Nat
  requestCount : Nat
  maxRequests : Int
  deriving DecidableEq, Repr

/-- A freshly constructed worker (NewWorker): dead=false, state Idle,
in-flight 0, request count 0. -/
def freshWorker (maxRequests : Int) : Worker :=
  { dead := false, state := .idle, inFlight := 0, requestCount := 0,
    maxRequests := maxRequests }

namespace Worker

/-- `markDead`: set the dead flag and force state to Dead. -/
def markDead (w : Worker) : Worker :=
  { w with dead := true, state := .dead }

/-- `setState`. -/
def setState (w : Worker) (s : WorkerState) : Worker :=
  { w with state := s }

/-- `incrInFlight`. -/
def incrInFlight (w : Worker) : Worker :=
  { w with inFlight := w.inFlight + 1 }

/-- `decrInFlight` (guarded: only decrements when positive). -/
def decrInFlight (w : Worker) : Worker :=
  if w.inFlight > 0 then { w with inFlight := w.inFlight - 1 } else w

/-- `startDraining`: moves to Draining unless the state is already Dead. -/
def startDraining (w : Worker) : Worker :=
  if w.state ≠ .dead then { w with state := .draining } else w

/-- `isDraining`. -/
def isDraining (w : Worker) : Bool :=
  w.state == .draining

/-- The state reset performed by a successful `restart` (part_001 lines
205-222): dead=false, state Idle, in-flight 0, request count 0.  Spawning
the new process is abstracted (its failure is an oracle outcome where it
matters). -/
def restartState (w : Worker) : Worker :=
  { w with dead := false, state := .idle, inFlight := 0, requestCount := 0 }

/-- The deferred completion block shared by `Handle` and `Stream`
(part_001 lines 237-245 / 371-378): decrement in-flight; if it reached 0
while draining, mark dead; otherwise if still alive revert to Idle. -/
def deferComplete (w : Worker) : Worker :=
  let w := w.decrInFlight
  if w.inFlight == 0 && w.isDraining then w.markDead
  else if !w.dead then w.setState .idle
  else w

end Worker

/-! ## Payloads

Modelled from the spec: the `RequestPayload` / `ResponsePayload` struct
declarations are not among the provided source files (only their uses
are); fields follow the spec's wire-protocol tables (id/method/path/
headers/body; status (0 ⇒ 200)/headers/body). -/

structure RequestPayload where
  id : String
  method : String
  path : String
  headers : List (String × String)
  body : String
  deriving DecidableEq, Repr

structure ResponsePayload where
  status : Int
  headers : List (String × String)
  body : String
  deriving DecidableEq, Repr

/-! ## Unary Handle

`handleRequest` writes the framed request and reads one framed response
on a reader goroutine.  The embedding keeps the frame-length validation
(part_001 lines 322-327) concrete and abstracts the remaining I/O and
JSON decoding as an outcome. -/

/-- The reader-side handling of one unary response frame (part_001 lines
314-341): after the 4-byte header yields `declaredLen`, a length of 0 or
above 10 MiB is refused with io.ErrUnexpectedEOF; otherwise the body
read + JSON decode produce `bodyResult`. -/
def readUnaryResponse (declaredLen : Nat)
    (bodyResult : Except GoError ResponsePayload) :
    Except GoError ResponsePayload :=
  if declaredLen == 0 || declaredLen > 10 * 1024 * 1024 then
    .error .unexpectedEOF
  else
    bodyResult

/-- Outcome of one `handleRequest` call as seen by `Handle`.
`marksDead` is true exactly when `handleRequest` itself marked the worker
dead before returning (the timeout branch, part_001 lines 348-355). -/
structure AttemptOutcome where
  result : Except GoError ResponsePayload
  marksDead : Bool
  deriving Repr

/-- Oracle for the external effects of a `Handle` call: the outcome of
`handleRequest` on each attempt, and whether the process respawn in
`restart` succeeds on each attempt. -/
structure WireOracle where
  attempt : Nat → AttemptOutcome
  restartErr : Nat → Option GoError

/-- Ghost events recording the order of externally visible actions inside
`Handle`'s retry loop. -/
inductive HandleEv where
  | attempted (i : Nat)
  | markedDead
  | restarted
  deriving DecidableEq, Repr

/-- The body of `Handle`'s retry loop (part_001 lines 247-272), unrolled
on the remaining attempt budget (2 at entry).  Per attempt: restart if
dead (propagating a spawn error), run `handleRequest`; a broken-pipe
class error marks the worker dead and continues; any other error returns;
on success the request counter is bumped and the worker recycled when it
meets `maxRequests` (when positive).  Exhausting the budget returns
io.ErrUnexpectedEOF. -/
def handleLoop (o : WireOracle) :
    Worker → Nat → Nat → Worker × Except GoError ResponsePayload × List HandleEv
  | w, _, 0 => (w, .error .unexpectedEOF, [])
  | w, i, budget + 1 =>
    let (w, evs0, spawnErr) :=
      if w.dead then
        match o.restartErr i with
        | some e => (w, ([] : List HandleEv), some e)
        | none => (w.restartState, [HandleEv.restarted], none)
      else (w, [], none)
    match spawnErr with
    | some e => (w, .error e, evs0)
    | none =>
      let oc := o.attempt i
      let w := if oc.marksDead then w.markDead else w
      match oc.result with
      | .error e =>
        if isBrokenPipe e then
          let w := w.markDead
          let (w, res, evs) := handleLoop o w (i + 1) budget
          (w, res, evs0 ++ [HandleEv.attempted i, HandleEv.markedDead] ++ evs)
        else
          (w, .error e, evs0 ++ [HandleEv.attempted i])
      | .ok resp =>
        let n := w.requestCount + 1
        let w := { w with requestCount := n }
        let w :=
          if 0 < w.maxRequests && w.maxRequests ≤ (n : Int) then w.markDead
          else w
        (w, .ok resp, evs0 ++ [HandleEv.attempted i])

/-- `Worker.Handle` (part_001 lines 225-273): fail fast when dead or
draining; admit (in-flight++, state Busy); run the retry loop; on every
exit path run the deferred completion block. -/
def Worker.Handle (o : WireOracle) (w : Worker) :
    Worker × Except GoError ResponsePayload × List HandleEv :=
  if w.dead then (w, .error .workerDead, [])
  else if w.isDraining then (w, .error .workerDraining, [])
  else
    let w := (w.incrInFlight).setState .busy
    let (w, res, evs) := handleLoop o w 0 2
    (w.deferComplete, res, evs)

/-! ## Streaming relay

`streamInternal` (part_001 lines 410-528) sends the framed request and
relays response frames to the HTTP sink.  The sink is modelled as the
trace of operations performed on it; the incoming wire is a list of
frame-read results. -/

/-- Modelled from the spec: the `StreamFrame` struct declaration is not
among the provided source files (only its uses are); fields follow the
spec's stream-frame table (`type`, optional `status`, optional
multi-valued `headers`, `data`, `error`). -/
structure StreamFrame where
  type : String
  status : Int
  headers : Option (List (String × List String))
  data : String
  error : String
  deriving DecidableEq, Repr

/-- Operations performed on the `http.ResponseWriter` sink, in order. -/
inductive SinkEv where
  | addHeader (k v : String)
  | setHeader (k v : String)
  | writeHeader (status : Int)
  | write (data : String)
  | flush
  deriving DecidableEq, Repr

/-- Relay-loop locals of `streamInternal`: `headersSent` and the current
`statusCode` (initially http.StatusOK = 200). -/
structure RelayState where
  headersSent : Bool
  statusCode : Int
  deriving DecidableEq, Repr

def initRelayState : RelayState := { headersSent := false, statusCode := 200 }

/-- Go `strings.ToLower` on the characters of `s` (kept executable by
kernel reduction, unlike `String.toLower`'s byte-position recursion). -/
def strToLower (s : String) : String :=
  String.mk (s.data.map Char.toLower)

/-- Header emission of the `headers` frame case (part_001 lines 470-487):
skip empty value lists; a name lowercasing to "set-cookie" adds each
value as its own header line; any other name is set once to the values
joined with ", ". -/
def emitHeaderKV (k : String) (vs : List String) : List SinkEv :=
  if vs.length == 0 then []
  else if strToLower k == "set-cookie" then vs.map (fun v => .addHeader k v)
  else [.setHeader k (String.intercalate ", " vs)]

def emitHeaders : Option (List (String × List String)) → List SinkEv
  | none => []
  | some hs => hs.flatMap (fun kv => emitHeaderKV kv.1 kv.2)

/-- Result of relaying one frame. -/
inductive StepRes where
  | next
  | done
  | errored (e : GoError)
  deriving DecidableEq, Repr

/-- The `switch frame.Type` body (part_001 lines 468-526).  `headers`:
apply headers, update the status when the frame carries one, write the
status line, mark headers sent, then write+flush any initial data.
`chunk`: synthesize the status line first if headers were not sent, then
write+flush the data.  `end` terminates; `error` and unknown types fail
without touching the worker. -/
def streamStep (st : RelayState) (f : StreamFrame) :
    RelayState × List SinkEv × StepRes :=
  if f.type == "headers" then
    let evs := emitHeaders f.headers
    let status := if f.status != 0 then f.status else st.statusCode
    let evs := evs ++ [SinkEv.writeHeader status]
    let evs := evs ++
      (if f.data != "" then [SinkEv.write f.data, SinkEv.flush] else [])
    ({ headersSent := true, statusCode := status }, evs, .next)
  else if f.type == "chunk" then
    let (st, evs) :=
      if !st.headersSent then
        ({ st with headersSent := true }, [SinkEv.writeHeader st.statusCode])
      else (st, [])
    let evs := evs ++
      (if f.data != "" then [SinkEv.write f.data, SinkEv.flush] else [])
    (st, evs, .next)
  else if f.type == "end" then (st, [], .done)
  else if f.type == "error" then (st, [], .errored (.streamError f.error))
  else (st, [], .errored (.unknownFrameType f.type))

/-- One frame read off the worker's stdout: the 4-byte header read can
fail; a well-formed header declares `len`; the body read / JSON decode
can fail (`badBody`) or yield a frame. -/
inductive FrameRead where
  | hdrErr (e : GoError)
  | badBody (len : Nat) (e : GoError)
  | frame (len : Nat) (f : StreamFrame)
  deriving Repr

/-- The relay loop (part_001 lines 440-527).  Per iteration: a header
read error marks the worker dead and returns it; a declared length of 0
or above 10 MiB marks the worker dead and returns io.ErrUnexpectedEOF; a
body read/decode error marks the worker dead and returns it; otherwise
the frame is relayed.  An exhausted wire behaves as a header read hitting
end of stream. -/
def streamLoop (w : Worker) (st : RelayState) :
    List FrameRead → Worker × List SinkEv × Except GoError Unit
  | [] => (w.markDead, [], .error .eof)
  | .hdrErr e :: _ => (w.markDead, [], .error e)
  | .badBody len e :: _ =>
    if len == 0 || len > 10 * 1024 * 1024 then
      (w.markDead, [], .error .unexpectedEOF)
    else
      (w.markDead, [], .error e)
  | .frame len f :: rest =>
    if len == 0 || len > 10 * 1024 * 1024 then
      (w.markDead, [], .error .unexpectedEOF)
    else
      match streamStep st f with
      | (st', evs, .next) =>
        let (w', evs', r) := streamLoop w st' rest
        (w', evs ++ evs', r)
      | (_, evs, .done) => (w, evs, .ok ())
      | (_, evs, .errored e) => (w, evs, .error e)

/-- `streamInternal` (part_001 lines 410-528): under the I/O mutex,
restart if the worker is dead, send the framed request (write errors are
outside the claims' scope and elided), then run the relay loop. -/
def streamInternal (w : Worker) (reads : List FrameRead) :
    Worker × List SinkEv × Except GoError Unit :=
  let w := if w.dead then w.restartState else w
  streamLoop w initRelayState reads

/-- `Worker.Stream` (part_001 lines 364-407): a dead or draining worker
fails fast with ErrWorkerDead; otherwise admit, relay, and run the
deferred completion block. -/
def Worker.Stream (w : Worker) (reads : List FrameRead) :
    Worker × List SinkEv × Except GoError Unit :=
  if w.dead || w.isDraining then (w, [], .error .workerDead)
  else
    let w := (w.incrInFlight).setState .busy
    let (w, evs, res) := streamInternal w reads
    (w.deferComplete, evs, res)

/-! ## Pool (src/server/pool.go) -/

structure WorkerPool where
  workers : List Worker
  next : Nat
  deriving DecidableEq, Repr

/-- Candidate test of `NextWorker` (pool.go line 71): neither dead nor
draining.  (`w != nil` is vacuous in the embedding: the list holds
workers, not pointers.) -/
def eligible (w : Worker) : Bool :=
  !w.dead && !w.isDraining

/-- Default used for list indexing; the pool invariant keeps the cursor
in range so it is never reached on well-formed pools. -/
def wdefault : Worker := freshWorker 0

/-- The scan loop of `NextWorker` (pool.go lines 68-74), on fuel `n`:
read the worker under the cursor, advance the cursor modulo the pool
size, and stop at the first eligible candidate.  Returns the final
cursor and the index of the selected worker, if any. -/
def nwLoop (ws : List Worker) : Nat → Nat → Nat × Option Nat
  | c, 0 => (c, none)
  | c, fuel + 1 =>
    let w := ws.getD c wdefault
    let c' := (c + 1) % ws.length
    if eligible w then (c', some c) else nwLoop ws c' fuel

/-- `WorkerPool.NextWorker` (pool.go lines 59-76): empty pool yields
none; otherwise scan up to `len(workers)` candidates from the cursor.
The selected worker is returned by index (pointer identity in Go). -/
def nextWorker (p : WorkerPool) : WorkerPool × Option Nat :=
  if p.workers.length == 0 then (p, none)
  else
    let (c, r) := nwLoop p.workers p.next p.workers.length
    ({ p with next := c }, r)

/-- `WorkerPool.Dispatch` (pool.go lines 35-42): pick a worker; none ⇒
ErrNoWorkers; otherwise delegate to its `Handle`, the updated worker
replacing it in the list. -/
def dispatch (o : WireOracle) (p : WorkerPool) :
    WorkerPool × Except GoError ResponsePayload :=
  match nextWorker p with
  | (p', none) => (p', .error .noWorkers)
  | (p', some i) =>
    let w := p'.workers.getD i wdefault
    let (w', res, _) := w.Handle o
    ({ p' with workers := p'.workers.set i w' }, res)

/-- The grow loop of `ScaleTo` (pool.go lines 110-116): invoke the
factory `count` times, appending each new worker; a factory error aborts
immediately, keeping the workers appended so far. -/
def growLoop (f : Nat → Except GoError Worker) :
    List Worker → Nat → Nat → List Worker × Option GoError
  | acc, _, 0 => (acc, none)
  | acc, j, count + 1 =>
    match f j with
    | .error e => (acc, some e)
    | .ok w => growLoop f (acc ++ [w]) (j + 1) count

/-- `WorkerPool.ScaleTo` (pool.go lines 89-119).  Equal size: no-op.
Shrink: `startDraining` each worker at indices [newSize, cur), truncate,
and reset the cursor to 0 when it is out of range; the marked extras are
returned so their final states stay observable (in Go they survive via
outstanding pointers).  Grow: run the factory loop. -/
def scaleTo (p : WorkerPool) (newSize : Nat)
    (f : Nat → Except GoError Worker) :
    WorkerPool × List Worker × Option GoError :=
  let cur := p.workers.length
  if newSize == cur then (p, [], none)
  else if newSize < cur then
    let dropped := (p.workers.drop newSize).map Worker.startDraining
    let kept := p.workers.take newSize
    let nxt := if p.next ≥ newSize then 0 else p.next
    ({ workers := kept, next := nxt }, dropped, none)
  else
    let (ws, err) := growLoop f p.workers 0 (newSize - cur)
    ({ p with workers := ws }, [], err)

/-! ## Pub/sub hub (src SSEHub)

Clients are identified by id (pointer identity in Go); `doneClosed`
records whether the client's one-shot `done` channel has been closed. -/

structure SSEClientH where
  id : Nat
  doneClosed : Bool
  deriving DecidableEq, Repr

/-- Hub subscriber map: association list channel → registered client
ids.  A missing channel key is Go's nil map value. -/
structure HubState where
  clients : List (String × List Nat)
  deriving DecidableEq, Repr

def hubLookup (h : HubState) (channel : String) : Option (List Nat) :=
  (h.clients.find? (fun kv => kv.1 == channel)).map (·.2)

def hubSet (h : HubState) (channel : String) (subs : List Nat) : HubState :=
  ⟨h.clients.map (fun kv => if kv.1 == channel then (kv.1, subs) else kv)⟩

def hubRemove (h : HubState) (channel : String) : HubState :=
  ⟨h.clients.filter (fun kv => !(kv.1 == channel))⟩

/-- Effect of `Unsubscribe` on the client's done channel. -/
inductive UnsubEffect where
  | noSet
  | closedDone
  | closedClosedChannel
  deriving DecidableEq, Repr

/-- `SSEHub.Unsubscribe` (part_002 lines 81-95): a channel with no
subscriber set returns at once; otherwise the client is deleted from the
set and its done channel is closed unconditionally — closing a channel
that is already closed is a Go runtime panic, recorded as
`closedClosedChannel`.  An emptied set removes the channel entry. -/
def unsubscribe (h : HubState) (channel : String) (c : SSEClientH) :
    HubState × SSEClientH × UnsubEffect :=
  match hubLookup h channel with
  | none => (h, c, .noSet)
  | some subs =>
    let subs' := subs.filter (fun i => !(i == c.id))
    let eff := if c.doneClosed then UnsubEffect.closedClosedChannel
               else UnsubEffect.closedDone
    let c' := { c with doneClosed := true }
    let h' := if subs'.length == 0 then hubRemove h channel
              else hubSet h channel subs'
    (h', c', eff)

/-! ## Auxiliary definitions used by the theorems -/

/-- An oracle on which every `handleRequest` attempt succeeds with `r`
and every respawn succeeds. -/
def okOracle (r : ResponsePayload) : WireOracle :=
  { attempt := fun _ => { result := .ok r, marksDead := false },
    restartErr := fun _ => none }

/-- `m` sequential `Handle` calls on one worker, keeping the state. -/
def iterHandle (o : WireOracle) : Worker → Nat → Worker
  | w, 0 => w
  | w, m + 1 => iterHandle o ((w.Handle o).1) m

/-- An idle, alive worker that has served `j` requests under a
`maxRequests` budget of `k`. -/
def aliveAt (j : Nat) (k : Int) : Worker :=
  { dead := false, state := .idle, inFlight := 0, requestCount := j,
    maxRequests := k }

/-- The dead counterpart of `aliveAt`. -/
def deadAt (j : Nat) (k : Int) : Worker :=
  { dead := true, state := .dead, inFlight := 0, requestCount := j,
    maxRequests := k }

/-- The round-robin scenario pool: `[w1 dead, w2 draining, w3 fresh]`,
cursor at 0. -/
def scnPool : WorkerPool :=
  { workers := [(freshWorker 0).markDead, (freshWorker 0).startDraining,
                freshWorker 0],
    next := 0 }

/-- A pool holding a single dead worker. -/
def deadPool : WorkerPool :=
  { workers := [(freshWorker 0).markDead], next := 0 }

/-- An `end` stream frame. -/
def endFrame : StreamFrame :=
  { type := "end", status := 0, headers := none, data := "", error := "" }

/-- A headers frame carrying status `s` and headers `hs`. -/
def headersFrame (s : Int) (hs : Option (List (String × List String)))
    (d : String) : StreamFrame :=
  { type := "headers", status := s, headers := hs, data := d, error := "" }

/-- A chunk frame carrying body data `d`. -/
def chunkFrame (d : String) : StreamFrame :=
  { type := "chunk", status := 0, headers := none, data := d, error := "" }

/-! ## Shared lemmas -/

/-- The deferred completion block never revives a dead worker. -/
theorem deferComplete_dead (w : Worker) (h : w.dead = true) :
    w.deferComplete.dead = true := by
  unfold Worker.deferComplete Worker.decrInFlight Worker.markDead
    Worker.setState Worker.isDraining
  split <;> simp_all <;> split <;> simp_all

/-! ## Claim C1 -/

/-- C1 counterexample: on a worker whose state is Draining (dead flag
unset), `Stream` fails with the WorkerDead error, not WorkerDraining as
the claim states. -/
theorem stream_draining_returns_workerDead_not_draining :
    (Worker.Stream ((freshWorker 0).startDraining) []).2.2 =
      .error .workerDead ∧
    GoError.workerDead ≠ GoError.workerDraining := by
  constructor
  · rfl
  · decide

/-- C1 (amended): `Handle` fails fast with WorkerDead when the dead flag
is set and with WorkerDraining when the state is Draining; `Stream` fails
fast with WorkerDead in both cases.  In each case the worker is returned
unchanged, no ghost event is recorded, and no sink operation is emitted —
the streams are untouched. -/
theorem fail_fast_dead_draining (w : Worker) (o : WireOracle)
    (reads : List FrameRead) :
    (w.dead = true → w.Handle o = (w, .error .workerDead, [])) ∧
    (w.dead = false → w.isDraining = true →
      w.Handle o = (w, .error .workerDraining, [])) ∧
    (w.dead = true ∨ w.isDraining = true →
      w.Stream reads = (w, [], .error .workerDead)) := by
  refine ⟨fun h => ?_, fun h h' => ?_, fun h => ?_⟩
  · simp [Worker.Handle, h]
  · simp [Worker.Handle, h, h']
  · rcases h with h | h <;> simp [Worker.Stream, h]

/-- C1 witness: the fail-fast theorem applied to a dead worker. -/
theorem fail_fast_dead_draining_witness :
    ((freshWorker 0).markDead).Handle (okOracle ⟨200, [], ""⟩) =
      ((freshWorker 0).markDead, .error .workerDead, []) :=
  (fail_fast_dead_draining ((freshWorker 0).markDead)
    (okOracle ⟨200, [], ""⟩) []).1 rfl

/-! ## Claim C2 -/

/-- C2 (code bug): a worker whose dead flag is set is never revived
through its next use.  On a pool holding exactly one dead worker,
`NextWorker` skips it and returns no worker, so `Dispatch` fails with
NoWorkers and leaves the pool unchanged (for every oracle, i.e. no wire
interaction happens); a direct `Handle` or `Stream` call on the dead
worker fails fast with WorkerDead, with no restart event and no stream
access — contradicting the claimed lazy restart-and-serve. -/
theorem dead_worker_never_revived (o : WireOracle) (reads : List FrameRead) :
    (nextWorker deadPool).2 = none ∧
    dispatch o deadPool = (deadPool, .error .noWorkers) ∧
    ((freshWorker 0).markDead).Handle o =
      ((freshWorker 0).markDead, .error .workerDead, []) ∧
    ((freshWorker 0).markDead).Stream reads =
      ((freshWorker 0).markDead, [], .error .workerDead) := by
  refine ⟨rfl, rfl, ?_, ?_⟩
  · simp [Worker.Handle, Worker.markDead]
  · simp [Worker.Stream, Worker.markDead]

/-! ## Claim C3 -/

/-- One scan step over an ineligible candidate moves the cursor on. -/
theorem nwLoop_step_skip (ws : List Worker) (c fuel : Nat)
    (h : eligible (ws.getD c wdefault) = false) :
    nwLoop ws c (fuel + 1) = nwLoop ws ((c + 1) % ws.length) fuel := by
  simp only [nwLoop]
  rw [h]
  simp

/-- One scan step over an eligible candidate selects it. -/
theorem nwLoop_step_take (ws : List Worker) (c fuel : Nat)
    (h : eligible (ws.getD c wdefault) = true) :
    nwLoop ws c (fuel + 1) = ((c + 1) % ws.length, some c) := by
  simp only [nwLoop]
  rw [h]
  simp

/-- Scan-loop characterization, found case: if the candidates at offsets
`0..i-1` from the cursor are all ineligible and the one at offset `i` is
eligible (`i` within the fuel), the loop stops there and leaves the
cursor one past the selected index. -/
theorem nwLoop_found (ws : List Worker) :
    ∀ (i fuel c : Nat), c < ws.length → i < fuel →
    (∀ k < i, eligible (ws.getD ((c + k) % ws.length) wdefault) = false) →
    eligible (ws.getD ((c + i) % ws.length) wdefault) = true →
    nwLoop ws c fuel =
      ((c + i + 1) % ws.length, some ((c + i) % ws.length)) := by
  intro i
  induction i with
  | zero =>
    intro fuel c hc hfuel _ hel
    match fuel, hfuel with
    | f + 1, hf =>
      simp only [Nat.add_zero, Nat.mod_eq_of_lt hc] at hel ⊢
      rw [nwLoop_step_take ws c f hel]
  | succ i ih =>
    intro fuel c hc hfuel hks hel
    match fuel, hfuel with
    | f + 1, hf =>
      have h0 : eligible (ws.getD c wdefault) = false := by
        have := hks 0 (Nat.succ_pos i)
        rwa [Nat.add_zero, Nat.mod_eq_of_lt hc] at this
      have hpos : 0 < ws.length := by omega
      have hrec := ih f ((c + 1) % ws.length) (Nat.mod_lt _ hpos)
        (Nat.lt_of_succ_lt_succ hf)
        (fun k hk => by
          have := hks (k + 1) (Nat.succ_lt_succ hk)
          rwa [Nat.mod_add_mod, show c + 1 + k = c + (k + 1) by omega])
        (by rwa [Nat.mod_add_mod, show c + 1 + i = c + (i + 1) by omega])
      rw [nwLoop_step_skip ws c f h0, hrec,
        show (c + 1) % ws.length + i + 1 =
          (c + 1) % ws.length + (i + 1) by omega,
        Nat.mod_add_mod, Nat.mod_add_mod,
        show c + 1 + (i + 1) = c + (i + 1) + 1 by omega,
        show c + 1 + i = c + (i + 1) by omega]

/-- Scan-loop characterization, exhausted case: when every worker in the
pool is ineligible the loop never selects one. -/
theorem nwLoop_none (ws : List Worker)
    (hall : ∀ j < ws.length, eligible (ws.getD j wdefault) = false) :
    ∀ (fuel c : Nat), c < ws.length → (nwLoop ws c fuel).2 = none := by
  intro fuel
  induction fuel with
  | zero => intro c _; rfl
  | succ f ih =>
    intro c hc
    have hpos : 0 < ws.length := by omega
    rw [nwLoop_step_skip ws c f (hall c hc)]
    exact ih _ (Nat.mod_lt _ hpos)

/-- C3: round-robin selection.  (i) Starting at the cursor, `NextWorker`
returns the first candidate (at offset `i < N`, examining at most `N`)
that is neither Dead nor Draining and advances the cursor one past it;
(ii) when no worker qualifies, `NextWorker` yields none and `Dispatch`
returns the NoWorkers error; (iii) on the pool `[w1 dead, w2 draining,
w3]`, four sequential `NextWorker` calls return index 2 (= w3) every
time. -/
theorem nextWorker_round_robin (p : WorkerPool) (o : WireOracle) (i : Nat) :
    (p.next < p.workers.length → i < p.workers.length →
      (∀ k < i,
        eligible (p.workers.getD ((p.next + k) % p.workers.length) wdefault)
          = false) →
      eligible (p.workers.getD ((p.next + i) % p.workers.length) wdefault)
          = true →
      nextWorker p =
        ({ p with next := (p.next + i + 1) % p.workers.length },
         some ((p.next + i) % p.workers.length))) ∧
    ((p.next < p.workers.length ∨ p.workers.length = 0) →
      (∀ j < p.workers.length,
        eligible (p.workers.getD j wdefault) = false) →
      (nextWorker p).2 = none ∧ (dispatch o p).2 = .error .noWorkers) ∧
    (nextWorker scnPool = (scnPool, some 2) ∧
      (nextWorker (nextWorker scnPool).1).2 = some 2 ∧
      (nextWorker (nextWorker (nextWorker scnPool).1).1).2 = some 2 ∧
      (nextWorker
        (nextWorker (nextWorker (nextWorker scnPool).1).1).1).2 = some 2 ∧
      scnPool.workers.getD 2 wdefault = freshWorker 0) := by
  refine ⟨fun hc hi hks hel => ?_, fun hc hall => ?_, by decide⟩
  · have hne : ¬ ((p.workers.length == 0) = true) := by
      simp only [beq_iff_eq]; omega
    unfold nextWorker
    rw [if_neg hne, nwLoop_found p.workers i p.workers.length p.next hc hi
      hks hel]
  · have h2 : (nextWorker p).2 = none := by
      rcases hc with hc | hc
      · have hne : ¬ ((p.workers.length == 0) = true) := by
          simp only [beq_iff_eq]; omega
        unfold nextWorker
        rw [if_neg hne]
        have := nwLoop_none p.workers hall p.workers.length p.next hc
        rcases hnw : nwLoop p.workers p.next p.workers.length with ⟨c, r⟩
        rw [hnw] at this
        simpa using this
      · simp [nextWorker, hc]
    refine ⟨h2, ?_⟩
    unfold dispatch
    rcases hnw : nextWorker p with ⟨p', r⟩
    rw [hnw] at h2
    simp only at h2
    subst h2
    rfl

/-- C3 witness: the round-robin theorem applied to the scenario pool with
the first eligible candidate at offset 2. -/
theorem nextWorker_round_robin_witness :
    nextWorker scnPool =
      ({ scnPool with next := (scnPool.next + 2 + 1) % scnPool.workers.length },
       some ((scnPool.next + 2) % scnPool.workers.length)) :=
  (nextWorker_round_robin scnPool (okOracle ⟨200, [], ""⟩) 2).1
    (by decide) (by decide) (by decide) (by decide)

/-! ## Claim C4 -/

/-- C4: retry discipline of the unary `Handle` on an alive worker.
(i) A broken-pipe-class failure of the first attempt marks the worker
dead and is retried exactly once, with the restart performed before the
retry; a successful retry returns the response.  (ii) When the retry
fails with a broken-pipe-class error as well, `Handle` returns
io.ErrUnexpectedEOF and the worker stays dead.  (iii) A
non-broken-pipe-class error is returned as-is with no retry and no
restart. -/
theorem handle_broken_pipe_retry (o : WireOracle) (w : Worker)
    (r : ResponsePayload) (e e' : GoError)
    (hd : w.dead = false) (hdr : w.isDraining = false) :
    (o.attempt 0 = ⟨.error e, false⟩ → isBrokenPipe e = true →
      o.restartErr 1 = none → o.attempt 1 = ⟨.ok r, false⟩ →
      (w.Handle o).2.1 = .ok r ∧
      (w.Handle o).2.2 =
        [.attempted 0, .markedDead, .restarted, .attempted 1]) ∧
    (o.attempt 0 = ⟨.error e, false⟩ → isBrokenPipe e = true →
      o.restartErr 1 = none → o.attempt 1 = ⟨.error e', false⟩ →
      isBrokenPipe e' = true →
      (w.Handle o).2.1 = .error .unexpectedEOF ∧
      (w.Handle o).1.dead = true ∧
      (w.Handle o).2.2 =
        [.attempted 0, .markedDead, .restarted, .attempted 1,
         .markedDead]) ∧
    (o.attempt 0 = ⟨.error e, false⟩ → isBrokenPipe e = false →
      (w.Handle o).2.1 = .error e ∧
      (w.Handle o).2.2 = [.attempted 0]) := by
  have hst : ¬ (w.state = WorkerState.draining) := by
    simpa [Worker.isDraining] using hdr
  refine ⟨fun h0 hbp hr h1 => ?_, fun h0 hbp hr h1 hbp' => ?_,
    fun h0 hbp => ?_⟩
  · simp only [Worker.Handle, hd, hdr, hst, Bool.false_eq_true, if_false,
      handleLoop, Worker.setState, Worker.incrInFlight, h0, hbp, hr, h1,
      Worker.markDead, Worker.restartState, if_true]
    simp
  · simp only [Worker.Handle, hd, hdr, hst, Bool.false_eq_true, if_false,
      handleLoop, Worker.setState, Worker.incrInFlight, h0, hbp, hr, h1,
      hbp', Worker.markDead, Worker.restartState, if_true,
      Worker.deferComplete, Worker.decrInFlight, Worker.isDraining]
    simp [hst]
  · simp only [Worker.Handle, hd, hdr, hst, Bool.false_eq_true, if_false,
      handleLoop, Worker.setState, Worker.incrInFlight, h0, hbp,
      Worker.markDead, if_true]
    simp [hst]

/-- C4 witness: a worker alive and idle; the first attempt hits io.EOF
(broken-pipe class), the retry succeeds. -/
theorem handle_broken_pipe_retry_witness :
    ((freshWorker 5).Handle
      { attempt := fun i =>
          if i == 0 then ⟨.error .eof, false⟩
          else ⟨.ok ⟨200, [], "ok"⟩, false⟩,
        restartErr := fun _ => none }).2.1 = .ok ⟨200, [], "ok"⟩ :=
  ((handle_broken_pipe_retry _ (freshWorker 5) ⟨200, [], "ok"⟩ .eof .eof
    rfl rfl).1 rfl (by decide) rfl rfl).1

/-! ## Claim C5 -/

/-- A successful `Handle` on an idle alive worker bumps the request
count and marks the worker dead exactly when the count meets a positive
`maxRequests`. -/
theorem handle_step_ok (j : Nat) (k : Int) (r : ResponsePayload) :
    (aliveAt j k).Handle (okOracle r) =
      ((if 0 < k ∧ k ≤ ((j + 1 : Nat) : Int) then deadAt (j + 1) k
        else aliveAt (j + 1) k), .ok r, [.attempted 0]) := by
  by_cases h : 0 < k ∧ k ≤ ((j + 1 : Nat) : Int)
  · rw [if_pos h]
    obtain ⟨h1, h2⟩ := h
    push_cast at h2
    simp [Worker.Handle, handleLoop, okOracle, aliveAt, deadAt,
      Worker.incrInFlight, Worker.setState, Worker.markDead,
      Worker.deferComplete, Worker.decrInFlight, Worker.isDraining, h1,
      h2]
  · rw [if_neg h]
    rw [Decidable.not_and_iff_or_not] at h
    rcases h with h | h <;> push_cast at h <;>
      simp [Worker.Handle, handleLoop, okOracle, aliveAt,
        Worker.incrInFlight, Worker.setState, Worker.markDead,
        Worker.deferComplete, Worker.decrInFlight, Worker.isDraining, h]

/-- `iterHandle` peels its last step. -/
theorem iterHandle_succ (o : WireOracle) :
    ∀ (m : Nat) (w : Worker),
    iterHandle o w (m + 1) = ((iterHandle o w m).Handle o).1 := by
  intro m
  induction m with
  | zero => intro w; rfl
  | succ m ih =>
    intro w
    show iterHandle o ((w.Handle o).1) (m + 1) = _
    rw [ih ((w.Handle o).1)]
    rfl

/-- State reached after `j ≤ k` successful requests from fresh: alive
with count `j` while `j < k`, dead with count `k` at `j = k`. -/
theorem iterHandle_ok (k : Nat) (r : ResponsePayload) (hk : 0 < k) :
    ∀ j, j ≤ k → iterHandle (okOracle r) (freshWorker (k : Int)) j =
      if j < k then aliveAt j (k : Int) else deadAt k (k : Int) := by
  intro j
  induction j with
  | zero =>
    intro _
    simp only [if_pos hk]
    rfl
  | succ j ih =>
    intro hj
    have hjk : j < k := by omega
    rw [iterHandle_succ, ih (by omega), if_pos hjk, handle_step_ok]
    by_cases h : j + 1 < k
    · rw [if_pos h, if_neg (by push_cast; omega)]
    · have hek : j + 1 = k := by omega
      rw [if_neg h, if_pos (by constructor <;> push_cast <;> omega), hek]

/-- C5: with `max_requests = k > 0`, after exactly `k` successful unary
requests the worker is dead (and not before); the `k`-th success is
still returned to the caller; `restart` resets the request count to 0,
the state to Idle, in-flight to 0 and the dead flag to false. -/
theorem max_requests_dead_after_k (k : Nat) (r : ResponsePayload)
    (w : Worker) (hk : 0 < k) :
    (∀ j, j < k →
      (iterHandle (okOracle r) (freshWorker (k : Int)) j).dead = false ∧
      (iterHandle (okOracle r) (freshWorker (k : Int)) j).requestCount
        = j) ∧
    ((iterHandle (okOracle r) (freshWorker (k : Int)) k).dead = true ∧
      (iterHandle (okOracle r) (freshWorker (k : Int)) k).requestCount
        = k) ∧
    (((iterHandle (okOracle r) (freshWorker (k : Int)) (k - 1)).Handle
        (okOracle r)).2.1 = .ok r) ∧
    (w.restartState.requestCount = 0 ∧ w.restartState.state = .idle ∧
      w.restartState.inFlight = 0 ∧ w.restartState.dead = false) := by
  refine ⟨fun j hj => ?_, ?_, ?_, by simp [Worker.restartState]⟩
  · rw [iterHandle_ok k r hk j (by omega), if_pos hj]
    exact ⟨rfl, rfl⟩
  · rw [iterHandle_ok k r hk k (by omega), if_neg (by omega)]
    exact ⟨rfl, rfl⟩
  · rw [iterHandle_ok k r hk (k - 1) (by omega),
      if_pos (by omega), handle_step_ok]

/-- C5 witness: `max_requests = 2`; after the two successful requests the
worker is dead, the second success still being returned. -/
theorem max_requests_dead_after_k_witness :
    ((iterHandle (okOracle ⟨200, [], "ok"⟩)
        (freshWorker ((2 : Nat) : Int)) 2).dead = true ∧
      (iterHandle (okOracle ⟨200, [], "ok"⟩)
        (freshWorker ((2 : Nat) : Int)) 2).requestCount = 2) ∧
    ((iterHandle (okOracle ⟨200, [], "ok"⟩)
        (freshWorker ((2 : Nat) : Int)) 1).Handle
          (okOracle ⟨200, [], "ok"⟩)).2.1 = .ok ⟨200, [], "ok"⟩ :=
  ⟨(max_requests_dead_after_k 2 ⟨200, [], "ok"⟩ (freshWorker 2)
      (by decide)).2.1,
   (max_requests_dead_after_k 2 ⟨200, [], "ok"⟩ (freshWorker 2)
      (by decide)).2.2.1⟩

/-! ## Claim C6 -/

/-- A stream frame whose declared length is 0 or above 10 MiB makes the
relay loop mark the worker dead and fail with io.ErrUnexpectedEOF. -/
theorem streamLoop_bad_len (w : Worker) (st : RelayState) (L : Nat)
    (f : StreamFrame) (rest : List FrameRead)
    (hL : L = 0 ∨ L > 10 * 1024 * 1024) :
    streamLoop w st (.frame L f :: rest) =
      (w.markDead, [], .error .unexpectedEOF) := by
  rcases hL with h | h
  · subst h; rfl
  · simp [streamLoop, h]

/-- After a first-attempt broken-pipe-class failure, the very next ghost
event after the attempt is the dead-marking, whatever the retry then
does. -/
theorem handle_trace_marks_dead (o : WireOracle) (w : Worker) (e : GoError)
    (hd : w.dead = false) (hdr : w.isDraining = false)
    (h0 : o.attempt 0 = ⟨.error e, false⟩) (hbp : isBrokenPipe e = true) :
    ((w.Handle o).2.2).take 2 = [.attempted 0, .markedDead] := by
  have hst : ¬ (w.state = WorkerState.draining) := by
    simpa [Worker.isDraining] using hdr
  rcases hre : o.restartErr 1 with _ | e1
  · rcases h1 : o.attempt 1 with ⟨r1, md1⟩
    rcases r1 with e1' | r1'
    · by_cases hbp' : isBrokenPipe e1' = true
      · simp [Worker.Handle, handleLoop, hd, hdr, hst, h0, hbp, hre, h1,
          hbp', Worker.setState, Worker.incrInFlight, Worker.markDead,
          Worker.restartState]
      · simp [Worker.Handle, handleLoop, hd, hdr, hst, h0, hbp, hre, h1,
          hbp', Worker.setState, Worker.incrInFlight, Worker.markDead,
          Worker.restartState]
    · simp [Worker.Handle, handleLoop, hd, hdr, hst, h0, hbp, hre, h1,
        Worker.setState, Worker.incrInFlight, Worker.markDead,
        Worker.restartState]
  · simp [Worker.Handle, handleLoop, hd, hdr, hst, h0, hbp, hre,
      Worker.setState, Worker.incrInFlight, Worker.markDead,
      Worker.restartState]

/-- C6: frames with declared length 0 or above 10 MiB are refused.
(i) The unary response reader reports io.ErrUnexpectedEOF on such a
length, whatever the remaining read would have produced; (ii) inside
`Handle` that error is broken-pipe class, so a wire that keeps producing
such frames leaves the worker dead with `Handle` returning
io.ErrUnexpectedEOF; (iii) the stream relay marks the worker dead and
returns io.ErrUnexpectedEOF at such a frame, and (iv) a `Stream` call
hitting it ends with the worker dead. -/
theorem bad_frame_length_refused (L : Nat)
    (body : Except GoError ResponsePayload) (o : WireOracle) (w : Worker)
    (st : RelayState) (f : StreamFrame) (rest : List FrameRead)
    (hL : L = 0 ∨ L > 10 * 1024 * 1024) :
    readUnaryResponse L body = .error .unexpectedEOF ∧
    (w.dead = false → w.isDraining = false →
      o.attempt 0 = ⟨.error .unexpectedEOF, false⟩ →
      ((w.Handle o).2.2).take 2 = [.attempted 0, .markedDead]) ∧
    (w.dead = false → w.isDraining = false →
      o.attempt 0 = ⟨.error .unexpectedEOF, false⟩ →
      o.restartErr 1 = none →
      o.attempt 1 = ⟨.error .unexpectedEOF, false⟩ →
      (w.Handle o).2.1 = .error .unexpectedEOF ∧
      (w.Handle o).1.dead = true) ∧
    streamLoop w st (.frame L f :: rest) =
      (w.markDead, [], .error .unexpectedEOF) ∧
    (w.dead = false → w.isDraining = false →
      (w.Stream (.frame L f :: rest)).2.2 = .error .unexpectedEOF ∧
      (w.Stream (.frame L f :: rest)).1.dead = true) := by
  refine ⟨?_,
    fun hd hdr h0 => handle_trace_marks_dead o w .unexpectedEOF hd hdr h0
      (by decide),
    fun hd hdr h0 hr h1 => ?_, streamLoop_bad_len w st L f rest hL,
    fun hd hdr => ?_⟩
  · rcases hL with h | h
    · subst h; rfl
    · simp [readUnaryResponse, h]
  · have hst : ¬ (w.state = WorkerState.draining) := by
      simpa [Worker.isDraining] using hdr
    simp only [Worker.Handle, hd, hdr, hst, Bool.false_eq_true, if_false,
      handleLoop, Worker.setState, Worker.incrInFlight, h0, hr, h1,
      Worker.markDead, Worker.restartState, if_true, Worker.deferComplete,
      Worker.decrInFlight, Worker.isDraining]
    simp [hst, isBrokenPipe]
  · simp only [Worker.Stream, streamInternal, Worker.setState,
      Worker.incrInFlight, hd, hdr, Bool.false_or, Bool.false_eq_true,
      if_false]
    rw [streamLoop_bad_len _ initRelayState L f rest hL]
    exact ⟨rfl, deferComplete_dead _ rfl⟩

/-- C6 witness: a zero-length unary frame is refused, and a stream frame
declaring 10 MiB + 1 kills a fresh worker's stream. -/
theorem bad_frame_length_refused_witness :
    readUnaryResponse 0 (.ok ⟨200, [], ""⟩) = .error .unexpectedEOF ∧
    streamLoop (freshWorker 0) initRelayState
        [.frame (10 * 1024 * 1024 + 1) endFrame] =
      ((freshWorker 0).markDead, [], .error .unexpectedEOF) :=
  ⟨(bad_frame_length_refused 0 (.ok ⟨200, [], ""⟩)
      (okOracle ⟨200, [], ""⟩) (freshWorker 0) initRelayState endFrame []
      (Or.inl rfl)).1,
   (bad_frame_length_refused (10 * 1024 * 1024 + 1) (.ok ⟨200, [], ""⟩)
      (okOracle ⟨200, [], ""⟩) (freshWorker 0) initRelayState endFrame []
      (Or.inr (by omega))).2.2.2.1⟩

/-! ## Claim C7 -/

/-- C7: stream header relay.  (i) A (case-insensitive) Set-Cookie header
emits each value as its own header line; (ii) any other multi-valued
header is set once to its values joined with ", "; (iii) a headers frame
applies the headers, writes the status line using the frame's status or
the current (initially 200) status when unset, then writes and flushes
any initial data; (iv) a chunk frame before any headers synthesizes the
status line with the current status first, then writes and flushes the
data; (v) on the initial relay state that synthesized status is the
default 200. -/
theorem stream_headers_relay (k : String) (vs : List String)
    (st : RelayState) (f : StreamFrame) :
    (vs ≠ [] → strToLower k = "set-cookie" →
      emitHeaderKV k vs = vs.map (fun v => .addHeader k v)) ∧
    (vs ≠ [] → strToLower k ≠ "set-cookie" →
      emitHeaderKV k vs = [.setHeader k (String.intercalate ", " vs)]) ∧
    (f.type = "headers" →
      streamStep st f =
        ({ headersSent := true,
           statusCode := if f.status != 0 then f.status else st.statusCode },
         emitHeaders f.headers ++
           [SinkEv.writeHeader
             (if f.status != 0 then f.status else st.statusCode)] ++
           (if f.data != "" then [SinkEv.write f.data, SinkEv.flush]
            else []),
         .next)) ∧
    (f.type = "chunk" → st.headersSent = false →
      streamStep st f =
        ({ st with headersSent := true },
         [SinkEv.writeHeader st.statusCode] ++
           (if f.data != "" then [SinkEv.write f.data, SinkEv.flush]
            else []),
         .next)) ∧
    (f.type = "chunk" →
      (streamStep initRelayState f).2.1 =
        [SinkEv.writeHeader 200] ++
          (if f.data != "" then [SinkEv.write f.data, SinkEv.flush]
           else [])) := by
  refine ⟨fun hv hk => ?_, fun hv hk => ?_, fun ht => ?_, fun ht hh => ?_,
    fun ht => ?_⟩
  · have h0 : (vs.length == 0) = false := by
      simp [List.length_eq_zero, hv]
    simp [emitHeaderKV, h0, hk]
  · have h0 : (vs.length == 0) = false := by
      simp [List.length_eq_zero, hv]
    simp [emitHeaderKV, h0, hk]
  · simp [streamStep, ht]
  · have hc : (f.type == "headers") = false := by simp [ht]
    simp [streamStep, ht, hc, hh]
  · have hc : (f.type == "headers") = false := by simp [ht]
    simp [streamStep, ht, hc, initRelayState]

/-- C7 witness: the multi-valued header scenario — two Set-Cookie values
become two header lines, "X-Tag" joins to "x, y", and a leading chunk
synthesizes a 200 status line before its data. -/
theorem stream_headers_relay_witness :
    emitHeaderKV "Set-Cookie" ["a=1", "b=2"] =
      (["a=1", "b=2"].map (fun v => .addHeader "Set-Cookie" v)) ∧
    emitHeaderKV "X-Tag" ["x", "y"] =
      [.setHeader "X-Tag" (String.intercalate ", " ["x", "y"])] ∧
    (streamStep initRelayState (chunkFrame "hi")).2.1 =
      [SinkEv.writeHeader 200] ++
        (if (chunkFrame "hi").data != ""
         then [SinkEv.write (chunkFrame "hi").data, SinkEv.flush]
         else []) :=
  ⟨(stream_headers_relay "Set-Cookie" ["a=1", "b=2"] initRelayState
      endFrame).1 (by decide) (by decide),
   (stream_headers_relay "X-Tag" ["x", "y"] initRelayState endFrame).2.1
      (by decide) (by decide),
   (stream_headers_relay "X-Tag" ["x", "y"] initRelayState
      (chunkFrame "hi")).2.2.2.2 rfl⟩

/-! ## Claim C8 -/

/-- C8 counterexample: a stream sending a second headers frame after the
first completes successfully — the relay raises no error, the worker is
not marked dead, and the second frame is relayed (its status line is
written again). -/
theorem second_headers_no_error :
    (Worker.Stream (freshWorker 0)
        [.frame 8 (headersFrame 201 (some [("X", ["a"])]) ""),
         .frame 8 (headersFrame 202 none ""),
         .frame 4 endFrame]).2.2 = .ok () ∧
    (Worker.Stream (freshWorker 0)
        [.frame 8 (headersFrame 201 (some [("X", ["a"])]) ""),
         .frame 8 (headersFrame 202 none ""),
         .frame 4 endFrame]).1.dead = false ∧
    (Worker.Stream (freshWorker 0)
        [.frame 8 (headersFrame 201 (some [("X", ["a"])]) ""),
         .frame 8 (headersFrame 202 none ""),
         .frame 4 endFrame]).2.1 =
      [.setHeader "X" "a", .writeHeader 201, .writeHeader 202] := by
  refine ⟨rfl, rfl, by decide⟩

/-- C8 (amended): a headers frame arriving after headers have already
been sent is not treated as an error: it is processed exactly like the
first one (headers applied, status line written again), the relay
continues with the next frame, and the worker is not marked dead. -/
theorem second_headers_frame_relayed (st : RelayState) (f : StreamFrame)
    (w : Worker) (len : Nat) (rest : List FrameRead)
    (_hh : st.headersSent = true) (ht : f.type = "headers")
    (hlen : 0 < len ∧ len ≤ 10 * 1024 * 1024) :
    (streamStep st f).2.2 = .next ∧
    (streamStep st f).2.1 =
      emitHeaders f.headers ++
        [SinkEv.writeHeader
          (if f.status != 0 then f.status else st.statusCode)] ++
        (if f.data != "" then [SinkEv.write f.data, SinkEv.flush]
         else []) ∧
    streamLoop w st (.frame len f :: rest) =
      ((streamLoop w (streamStep st f).1 rest).1,
       (streamStep st f).2.1 ++ (streamLoop w (streamStep st f).1 rest).2.1,
       (streamLoop w (streamStep st f).1 rest).2.2) := by
  have h1 : (streamStep st f).2.2 = .next := by simp [streamStep, ht]
  have hb : (len == 0 || len > 10 * 1024 * 1024) = false := by
    simp only [Bool.or_eq_false_iff, beq_eq_false_iff_ne, ne_eq,
      decide_eq_false_iff_not]
    omega
  refine ⟨h1, by simp [streamStep, ht], ?_⟩
  simp only [streamLoop, hb, Bool.false_eq_true, if_false]
  rcases hs : streamStep st f with ⟨st', evs, r⟩
  rw [hs] at h1
  simp only at h1
  subst h1
  simp

/-- C8 witness: the amended theorem applied after a first headers frame
(relay state already has headersSent). -/
theorem second_headers_frame_relayed_witness :
    (streamStep { headersSent := true, statusCode := 201 }
        (headersFrame 202 none "")).2.2 = .next :=
  (second_headers_frame_relayed { headersSent := true, statusCode := 201 }
      (headersFrame 202 none "") (freshWorker 0) 8 [.frame 4 endFrame]
      rfl rfl (by omega)).1

/-! ## Claim C9 -/

/-- Grow loop, all factory calls succeeding: appends the `count` new
workers in invocation order. -/
theorem growLoop_all_ok (f : Nat → Except GoError Worker)
    (g : Nat → Worker) :
    ∀ (count j : Nat) (acc : List Worker),
    (∀ i < count, f (j + i) = .ok (g (j + i))) →
    growLoop f acc j count =
      (acc ++ (List.range count).map (fun i => g (j + i)), none) := by
  intro count
  induction count with
  | zero => intro j acc _; simp [growLoop]
  | succ c ih =>
    intro j acc hok
    have h0 : f j = .ok (g j) := by simpa using hok 0 (by omega)
    simp only [growLoop, h0]
    rw [ih (j + 1) (acc ++ [g j]) (fun i hi => by
      have := hok (i + 1) (by omega)
      rwa [show j + (i + 1) = j + 1 + i by omega] at this)]
    rw [List.append_assoc]
    refine congrArg (fun l => (acc ++ l, none)) ?_
    rw [List.range_succ_eq_map]
    simp only [List.map_cons, List.map_map, Nat.add_zero,
      List.singleton_append]
    refine congrArg (fun l => g j :: l) ?_
    refine List.map_congr_left (fun i _ => ?_)
    simp only [Function.comp_apply]
    refine congrArg g (by omega)

/-- Grow loop, with the `m`-th factory call failing: keeps the `m`
already-appended workers and aborts with the factory's error. -/
theorem growLoop_fail (f : Nat → Except GoError Worker) (g : Nat → Worker)
    (e : GoError) :
    ∀ (m count j : Nat) (acc : List Worker), m < count →
    (∀ i < m, f (j + i) = .ok (g (j + i))) →
    f (j + m) = .error e →
    growLoop f acc j count =
      (acc ++ (List.range m).map (fun i => g (j + i)), some e) := by
  intro m
  induction m with
  | zero =>
    intro count j acc hm _ herr
    match count, hm with
    | c + 1, _ =>
      simp only [growLoop]
      rw [show j + 0 = j from rfl] at herr
      rw [herr]
      simp
  | succ m ih =>
    intro count j acc hm hok herr
    match count, hm with
    | c + 1, hm' =>
      have h0 : f j = .ok (g j) := by simpa using hok 0 (by omega)
      simp only [growLoop, h0]
      rw [ih c (j + 1) (acc ++ [g j]) (by omega)
        (fun i hi => by
          have := hok (i + 1) (by omega)
          rwa [show j + (i + 1) = j + 1 + i by omega] at this)
        (by rwa [show j + 1 + m = j + (m + 1) by omega])]
      rw [List.append_assoc]
      refine congrArg (fun l => (acc ++ l, some e)) ?_
      rw [List.range_succ_eq_map]
      simp only [List.map_cons, List.map_map, Nat.add_zero,
        List.singleton_append]
      refine congrArg (fun l => g j :: l) ?_
      refine List.map_congr_left (fun i _ => ?_)
      simp only [Function.comp_apply]
      refine congrArg g (by omega)

/-- C9 counterexample: shrinking a pool whose surplus worker is already
Dead does not mark it Draining — `startDraining` leaves Dead workers
Dead, so the claim's "marks the workers at [n, current) as Draining"
fails at this input. -/
theorem scaleTo_shrink_dead_stays_dead :
    (scaleTo { workers := [(freshWorker 0).markDead], next := 0 } 0
        (fun _ => .ok (freshWorker 0))).2.1 =
      [(freshWorker 0).markDead] ∧
    ((freshWorker 0).markDead).state ≠ WorkerState.draining := by
  exact ⟨rfl, by decide⟩

/-- C9 (amended): `ScaleTo(n, factory)`.  Equal size: no-op.  Shrink:
applies the draining mark to exactly the workers at indices
[n, current) — each becomes Draining unless already Dead, in which case
it stays Dead — truncates the list to length n, and resets the cursor to
0 exactly when it would be out of range.  Grow: invokes the factory
n − current times appending each produced worker; a factory failure
aborts with that error, keeping the previously appended workers. -/
theorem scaleTo_spec (p : WorkerPool) (n m : Nat)
    (f : Nat → Except GoError Worker) (g : Nat → Worker) (e : GoError) :
    (n = p.workers.length → scaleTo p n f = (p, [], none)) ∧
    (n < p.workers.length →
      scaleTo p n f =
        ({ workers := p.workers.take n,
           next := if p.next ≥ n then 0 else p.next },
         (p.workers.drop n).map Worker.startDraining, none)) ∧
    (∀ w : Worker, w.state ≠ .dead →
      (w.startDraining).state = .draining) ∧
    (∀ w : Worker, w.state = .dead → w.startDraining = w) ∧
    (p.workers.length < n →
      (∀ i < n - p.workers.length, f i = .ok (g i)) →
      scaleTo p n f =
        ({ workers := p.workers ++ (List.range (n - p.workers.length)).map g,
           next := p.next }, [], none)) ∧
    (p.workers.length < n → m < n - p.workers.length →
      (∀ i < m, f i = .ok (g i)) → f m = .error e →
      scaleTo p n f =
        ({ workers := p.workers ++ (List.range m).map g,
           next := p.next }, [], some e)) := by
  refine ⟨fun hn => ?_, fun hn => ?_, fun w hw => ?_, fun w hw => ?_,
    fun hn hok => ?_, fun hn hm hok herr => ?_⟩
  · simp [scaleTo, hn]
  · have hne : (n == p.workers.length) = false := by
      simp only [beq_eq_false_iff_ne, ne_eq]; omega
    simp [scaleTo, hne, hn]
  · simp [Worker.startDraining, hw]
  · simp [Worker.startDraining, hw]
  · have hne : (n == p.workers.length) = false := by
      simp only [beq_eq_false_iff_ne, ne_eq]; omega
    have hnl : ¬ (n < p.workers.length) := by omega
    simp only [scaleTo, hne, Bool.false_eq_true, if_false, hnl]
    rw [growLoop_all_ok f g (n - p.workers.length) 0 p.workers
      (fun i hi => by simpa using hok i hi)]
    simp
  · have hne : (n == p.workers.length) = false := by
      simp only [beq_eq_false_iff_ne, ne_eq]; omega
    have hnl : ¬ (n < p.workers.length) := by omega
    simp only [scaleTo, hne, Bool.false_eq_true, if_false, hnl]
    rw [growLoop_fail f g e m (n - p.workers.length) 0 p.workers hm
      (fun i hi => by simpa using hok i hi) (by simpa using herr)]
    simp

/-- C9 witness: the amended theorem applied to the scale-down-then-up
scenario — a 3-pool shrunk to 1 and a 1-pool grown to 3. -/
theorem scaleTo_spec_witness :
    scaleTo { workers := [freshWorker 0, freshWorker 0, freshWorker 0],
              next := 0 } 1 (fun _ => .ok (freshWorker 0)) =
      ({ workers := [freshWorker 0, freshWorker 0, freshWorker 0].take 1,
         next := if (0 : Nat) ≥ 1 then 0 else 0 },
       ([freshWorker 0, freshWorker 0].map Worker.startDraining), none) ∧
    scaleTo { workers := [freshWorker 7], next := 0 } 3
        (fun _ => .ok (freshWorker 9)) =
      ({ workers := [freshWorker 7] ++
           (List.range 2).map (fun _ => freshWorker 9),
         next := 0 }, [], none) := by
  constructor
  · have h := (scaleTo_spec
      { workers := [freshWorker 0, freshWorker 0, freshWorker 0],
        next := 0 } 1 0 (fun _ => .ok (freshWorker 0))
      (fun _ => freshWorker 0) .noWorkers).2.1 (by decide)
    simpa using h
  · have h := (scaleTo_spec { workers := [freshWorker 7], next := 0 } 3 0
      (fun _ => .ok (freshWorker 9)) (fun _ => freshWorker 9)
      .noWorkers).2.2.2.2.1 (by decide) (fun i _ => rfl)
    simpa using h

/-! ## Claim C10 -/

/-- C10: `Unsubscribe` behavior on the done channel.  (i) Whenever the
channel has a subscriber set, the handle's done channel is closed
unconditionally — no membership check — and closing it when it is
already closed is the runtime close-of-closed-channel fault; (ii) when
the channel has no subscriber set, the call returns with nothing
touched; (iii) concretely, unsubscribing the same handle twice while
another subscriber keeps the channel alive closes an already-closed
channel on the second call; (iv) the done channel is closed even for a
handle that was never registered on the channel. -/
theorem unsubscribe_closes_done (h : HubState) (channel : String)
    (c : SSEClientH) (subs : List Nat) :
    (hubLookup h channel = some subs →
      (unsubscribe h channel c).2.1.doneClosed = true ∧
      (unsubscribe h channel c).2.2 =
        (if c.doneClosed then .closedClosedChannel else .closedDone)) ∧
    (hubLookup h channel = none →
      unsubscribe h channel c = (h, c, .noSet)) ∧
    ((unsubscribe (⟨[("ch", [1, 2])]⟩ : HubState) "ch"
        (⟨1, false⟩ : SSEClientH)).2.2 = .closedDone ∧
      hubLookup (unsubscribe (⟨[("ch", [1, 2])]⟩ : HubState) "ch"
        (⟨1, false⟩ : SSEClientH)).1 "ch" = some [2] ∧
      (unsubscribe
        (unsubscribe (⟨[("ch", [1, 2])]⟩ : HubState) "ch"
          (⟨1, false⟩ : SSEClientH)).1 "ch"
        (unsubscribe (⟨[("ch", [1, 2])]⟩ : HubState) "ch"
          (⟨1, false⟩ : SSEClientH)).2.1).2.2 = .closedClosedChannel) ∧
    (unsubscribe (⟨[("ch", [2])]⟩ : HubState) "ch"
        (⟨1, false⟩ : SSEClientH)).2.2 = .closedDone := by
  refine ⟨fun hlk => ?_, fun hlk => ?_, by decide, by decide⟩
  · simp [unsubscribe, hlk]
  · simp [unsubscribe, hlk]

/-- C10 witness: the closing conjunct applied to a hub where the handle
is not registered on the (populated) channel. -/
theorem unsubscribe_closes_done_witness :
    (unsubscribe (⟨[("news", [5, 6])]⟩ : HubState) "news"
        (⟨9, false⟩ : SSEClientH)).2.1.doneClosed = true ∧
    (unsubscribe (⟨[("news", [5, 6])]⟩ : HubState) "news"
        (⟨9, false⟩ : SSEClientH)).2.2 =
      (if (⟨9, false⟩ : SSEClientH).doneClosed then .closedClosedChannel
       else .closedDone) :=
  (unsubscribe_closes_done (⟨[("news", [5, 6])]⟩ : HubState) "news"
      (⟨9, false⟩ : SSEClientH) [5, 6]).1 (by decide)

end AppServer
